import Mathlib

set_option maxRecDepth 8000

namespace SnarkBowl

/-- Truthiness fallback for strings, mirroring the JavaScript expression
`a || b` where the empty string is falsy. -/
def jsOr (a b : String) : String := if a = "" then b else a

/-- Truthiness fallback for nullable strings, mirroring `a || b` where both
`null` and the empty string are falsy. -/
def jsOrOpt (a b : Option String) : Option String :=
  match a with
  | some s => if s = "" then b else some s
  | none => b

/-- Truthiness of a nullable string, mirroring `if (x)` in JavaScript. -/
def truthy (x : Option String) : Bool :=
  match x with
  | some s => !(s == "")
  | none => false

/-- Whitespace test used by the sentence splitter and by trimming. -/
def isWs (c : Char) : Bool := c.isWhitespace

/-- Removal of leading and trailing whitespace from a character list. -/
def trimList (l : List Char) : List Char :=
  ((l.dropWhile isWs).reverse.dropWhile isWs).reverse

/-- Mirror of the JavaScript string `trim` method. -/
def jsTrim (s : String) : String := String.mk (trimList s.data)

/-- Mirror of the regex replacement that deletes every brace and double quote
character from the raw model reply. -/
def stripBracesQuotes (s : String) : String :=
  String.mk (s.data.filter (fun c => !(c = '\x7b' || c = '\x7d' || c = '\"')))

/-- Mirror of spreading a JavaScript `Set` built from a list: deduplication
keeping the first occurrence of each element, in order. -/
def jsSetDedup (l : List String) : List String :=
  l.foldl (fun acc x => if x ∈ acc then acc else acc ++ [x]) []

/-- Mirror of the array `slice` method with a negative index: the last `n`
elements of the list. -/
def sliceLast (n : Nat) (l : List α) : List α := l.drop (l.length - n)

/-- Parsed reply of the vision analyzer, the JSON schema of the response. -/
structure AnalysisResult where
  commentary : String
  theory : String
  brandGuess : Option String
  confidence : String
  tropesDetected : List String
  isNewAd : Bool
  adSummaryOneLiner : String
deriving DecidableEq

/-- One line of running commentary kept in the analysis state. -/
structure CommentaryEntry where
  id : String
  timestamp : Nat
  text : String
  confidence : String
deriving DecidableEq

/-- Mirror of the `AnalysisState` React state record. -/
structure AnalysisState where
  isAnalyzing : Bool
  currentTheory : String
  brandGuess : Option String
  tropeDetected : List String
  commentary : List CommentaryEntry
deriving DecidableEq

/-- Mirror of the `AdSession` record stored in the completed-ads history. -/
structure AdSession where
  id : String
  brandGuess : String
  oneLiner : String
  commentaryLog : List String
  startTime : Nat
  endTime : Nat
deriving DecidableEq

/-- Mirror of `saveCurrentAd` building the completed session record, with the
literal fallbacks for an empty brand guess and an empty one liner. -/
def mkAdSession (idStr brandGuess oneLiner : String) (log : List String)
    (startTime now : Nat) : AdSession :=
  { id := idStr
    brandGuess := jsOr brandGuess "Unknown Brand"
    oneLiner := jsOr oneLiner "Another $7M delusion."
    commentaryLog := log
    startTime := startTime
    endTime := now }

/-- Mirror of appending the finished session to the history. -/
def saveCurrentAd (completedAds : List AdSession) (s : AdSession) : List AdSession :=
  completedAds ++ [s]

/-- Mirror of the per-tick analysis state update: the new commentary entry is
appended after keeping the last two entries, theory and brand guess are
updated only by truthy values, and new tropes are unioned in set order. -/
def applyObs (a : AnalysisState) (r : AnalysisResult) (now : Nat) : AnalysisState :=
  { a with
    commentary := sliceLast 2 a.commentary ++
      [{ id := toString now
         timestamp := now
         text := r.commentary
         confidence := r.confidence }]
    currentTheory := jsOr r.theory a.currentTheory
    brandGuess := jsOrOpt r.brandGuess a.brandGuess
    tropeDetected := jsSetDedup (a.tropeDetected ++ r.tropesDetected) }

/-- Folding a sequence of timed observations over the analysis state. -/
def foldObs (a : AnalysisState) (l : List (AnalysisResult × Nat)) : AnalysisState :=
  l.foldl (fun st p => applyObs st p.1 p.2) a

/-- State of one run of the segmenting analysis loop: the React analysis
state, the session history, the start time of the current segment, the local
running-commentary array of the interval closure, and the brand guess as
seen by the interval closure. The interval callback reads the analysis
binding of the render in which the loop was started; the running interval
keeps that closure for its whole lifetime, so while the live state advances
through functional updaters, the closure snapshot never changes during the
run. -/
structure SegState where
  analysis : AnalysisState
  completedAds : List AdSession
  currentAdStart : Nat
  runningCommentary : List String
  closureBrandGuess : Option String
deriving DecidableEq

/-- Mirror of the ad-boundary branch of the tick: when the result flags a new
ad together with a non-empty one liner, the previous segment is saved. The
brand guess of the record is computed from the closure snapshot of the
analysis state, not from the live sticky value, because the interval
callback closes over the analysis binding fixed when the loop started; the
fallbacks are the result value and then the literal. The live running
segment is reset with a fresh start through a functional updater. -/
def boundaryStep (s : SegState) (r : AnalysisResult) (now : Nat) : SegState :=
  if r.isNewAd && !(r.adSummaryOneLiner == "") then
    { analysis := { s.analysis with
        commentary := []
        currentTheory := ""
        brandGuess := none
        tropeDetected := [] }
      completedAds := saveCurrentAd s.completedAds
        (mkAdSession (toString now)
          ((jsOrOpt s.closureBrandGuess r.brandGuess).getD "Unknown Brand")
          r.adSummaryOneLiner s.runningCommentary s.currentAdStart now)
      currentAdStart := now
      runningCommentary := []
      closureBrandGuess := s.closureBrandGuess }
  else s

/-- Mirror of the successful-result part of one analysis tick of the variant
with segmentation on: boundary handling, then pushing the commentary and
applying the observation to the analysis state. -/
def fullTick (s : SegState) (r : AnalysisResult) (now : Nat) : SegState :=
  let s1 := boundaryStep s r now
  { s1 with
    runningCommentary := s1.runningCommentary ++ [r.commentary]
    analysis := applyObs s1.analysis r now }

/-- Session ceiling of twenty minutes in milliseconds. -/
def SESSION_LIMIT_MS : Nat := 20 * 60 * 1000

/-- State of the session-time governor together with the interval handle and
the analyzing flag. -/
structure GovernorState where
  totalAnalysisTime : Nat
  sessionLimitHit : Bool
  intervalActive : Bool
  isAnalyzing : Bool
deriving DecidableEq

/-- Mirror of the budget check at the top of each interval tick: the nominal
duration is added to the cumulative counter and, at or past the ceiling, the
limit state is set, the interval is cleared and analyzing stops. A cleared
interval no longer ticks, so the tick is the identity then. -/
def govTick (dur : Nat) (g : GovernorState) : GovernorState :=
  if !g.intervalActive then g
  else
    let t := g.totalAnalysisTime + dur
    if SESSION_LIMIT_MS ≤ t then
      { totalAnalysisTime := t
        sessionLimitHit := true
        intervalActive := false
        isAnalyzing := false }
    else { g with totalAnalysisTime := t }

/-- Governor state right after the loop starts on a fresh run. -/
def govInit : GovernorState :=
  { totalAnalysisTime := 0
    sessionLimitHit := false
    intervalActive := true
    isAnalyzing := true }

/-- Iterated governor ticks from the fresh run state. -/
def govIter (dur : Nat) : Nat → GovernorState
  | 0 => govInit
  | k + 1 => govTick dur (govIter dur k)

/-- Mirror of the immersive action handler as it affects the governor: after
the limit is hit the handler returns immediately, otherwise starting sets the
analyzing flag and a live interval; the cumulative counter is never reset by
any code path. -/
def handleStart (g : GovernorState) : GovernorState :=
  if g.sessionLimitHit then g
  else { g with isAnalyzing := true, intervalActive := true }

/-- Lane of a commentary bubble. -/
inductive BubblePos
  | left
  | right
deriving DecidableEq

/-- Accent palette of the commentary bubbles. -/
inductive Accent
  | green
  | black
  | red
deriving DecidableEq

/-- Mirror of the `CommentaryBubble` record. -/
structure Bubble where
  id : String
  text : String
  position : BubblePos
  accent : Accent
  createdAt : Nat
deriving DecidableEq

/-- Mirror of the mutable refs of the commentary presentation scheduler. -/
structure SchedState where
  bubbleQueue : List String
  bubblePosition : BubblePos
  accentIndex : Nat
  bubbles : List Bubble
deriving DecidableEq

/-- Accent chosen by round robin over the fixed three-color palette. -/
def accentOf (n : Nat) : Accent :=
  match n % 3 with
  | 0 => Accent.green
  | 1 => Accent.black
  | _ => Accent.red

/-- Alternation of the bubble lane. -/
def flipPos : BubblePos → BubblePos
  | BubblePos.left => BubblePos.right
  | BubblePos.right => BubblePos.left

/-- Terminal punctuation recognized by the sentence splitter. -/
def isTerm (c : Char) : Bool := c = '.' || c = '!' || c = '?'

/-- Mirror of splitting on the regex of whitespace runs preceded by terminal
punctuation: the character walk splits at each maximal whitespace run whose
first character immediately follows terminal punctuation. The accumulator
holds the current fragment reversed; the flag records that the walk is inside
a splitting whitespace run. -/
def splitSentAux : List Char → List Char → Bool → List String
  | [], acc, skipping => if skipping then [""] else [String.mk acc.reverse]
  | c :: rest, acc, skipping =>
    if skipping then
      if isWs c then splitSentAux rest acc true
      else splitSentAux rest [c] false
    else
      if isWs c && (match acc.head? with | some p => isTerm p | none => false) then
        String.mk acc.reverse :: splitSentAux rest [] true
      else splitSentAux rest (c :: acc) false

/-- Mirror of the sentence extraction in `addCommentaryBubbles`: split into
sentences and keep the fragments that are not whitespace only. -/
def splitSentences (text : String) : List String :=
  (splitSentAux text.data [] false).filter (fun t => 0 < (jsTrim t).length)

/-- Mirror of `addCommentaryBubbles`: the extracted sentences are appended to
the pending queue in their original order. -/
def addCommentaryBubbles (s : SchedState) (text : String) : SchedState :=
  { s with bubbleQueue := s.bubbleQueue ++ splitSentences text }

/-- Mirror of one firing of the release interval: if the queue is non-empty,
dequeue one sentence, materialize it as a bubble with alternating lane and
cyclic accent, and keep at most the last five bubbles. -/
def releaseTick (s : SchedState) (now : Nat) : SchedState :=
  match s.bubbleQueue with
  | [] => s
  | sentence :: rest =>
    let b : Bubble :=
      { id := toString now
        text := jsTrim sentence
        position := s.bubblePosition
        accent := accentOf s.accentIndex
        createdAt := now }
    { bubbleQueue := rest
      bubblePosition := flipPos s.bubblePosition
      accentIndex := s.accentIndex + 1
      bubbles := sliceLast 5 (s.bubbles ++ [b]) }

/-- Mirror of one firing of the expiry sweep: keep the bubbles younger than
the sixteen-second horizon. -/
def sweepBubbles (now : Nat) (l : List Bubble) : List Bubble :=
  l.filter (fun b => decide (now - b.createdAt < 16000))

/-- Events that touch the scheduler state: a producer append, a release tick
and an expiry sweep. -/
inductive SchedEvent
  | produce (text : String)
  | release (now : Nat)
  | sweep (now : Nat)
deriving DecidableEq

/-- One scheduler event applied to the scheduler state. -/
def schedStep (s : SchedState) : SchedEvent → SchedState
  | SchedEvent.produce text => addCommentaryBubbles s text
  | SchedEvent.release now => releaseTick s now
  | SchedEvent.sweep now => { s with bubbles := sweepBubbles now s.bubbles }

/-- Folding a sequence of scheduler events over the scheduler state. -/
def runSched (s : SchedState) (evs : List SchedEvent) : SchedState :=
  evs.foldl schedStep s

/-- Mirror of the catch branch of the response parsing in the analyze call: a
best-effort commentary-only result built from the raw text, preserving the
current theory. -/
def malformedFallback (content currentTheory : String) : AnalysisResult :=
  { commentary := jsOr (jsTrim (stripBracesQuotes content)) "Analyzing..."
    theory := currentTheory
    brandGuess := none
    confidence := "guessing"
    tropesDetected := []
    isNewAd := false
    adSummaryOneLiner := "" }

/-- Mirror of the parse step of the analyze call: a successfully parsed body
is returned as is, and a parse failure degrades to the fallback instead of
aborting the tick. -/
def parseTickResult (parsed : Option AnalysisResult) (content currentTheory : String) :
    AnalysisResult :=
  match parsed with
  | some p => p
  | none => malformedFallback content currentTheory

/-- Whole-application state of the bubble variant, as far as the analysis
loop, the scheduler and the session ledger are concerned. An in-flight
analyzer call is modelled by the `pending` field; callbacks of a cleared
interval never run, while a pending result still arrives later. -/
structure AppState where
  analysis : AnalysisState
  completedAds : List AdSession
  currentAdStart : Nat
  runningCommentary : List String
  sched : SchedState
  intervalActive : Bool
  sessionLimitHit : Bool
  totalAnalysisTime : Nat
  pending : Option AnalysisResult
deriving DecidableEq

/-- Mirror of the stop handler of the bubble variant: clear the interval,
clear the sentence queue and the visible bubbles, save the current ad when
the sticky brand guess or theory is truthy, and drop the analyzing flag. The
pending analyzer call, if any, is not cancelled, and the sticky brand guess
and theory are left in place. -/
def stopAnalysis (s : AppState) (now : Nat) : AppState :=
  let saved :=
    if truthy s.analysis.brandGuess || !(s.analysis.currentTheory == "") then
      saveCurrentAd s.completedAds
        (mkAdSession (toString now) (s.analysis.brandGuess.getD "Unknown Brand")
          (match s.analysis.commentary.getLast? with
           | some e => e.text
           | none => "They tried.")
          (s.analysis.commentary.map (fun e => e.text))
          s.currentAdStart now)
    else s.completedAds
  { s with
    intervalActive := false
    sched := { s.sched with
      bubbleQueue := []
      bubbles := [] }
    completedAds := saved
    analysis := { s.analysis with isAnalyzing := false } }

/-- Arrival of a pending analyzer result in the bubble variant, where the
boundary handling is disabled: the commentary is pushed, its sentences are
queued for bubble release, and the analysis state is updated with sticky
theory and brand guess and the capped trope union. Nothing guards against the
interval having been cleared in the meantime. -/
def resultArrive (s : AppState) : AppState :=
  match s.pending with
  | none => s
  | some r =>
    { s with
      pending := none
      runningCommentary := s.runningCommentary ++ [r.commentary]
      sched := addCommentaryBubbles s.sched r.commentary
      analysis := { s.analysis with
        currentTheory := jsOr r.theory s.analysis.currentTheory
        brandGuess := jsOrOpt r.brandGuess s.analysis.brandGuess
        tropeDetected := sliceLast 9
          (jsSetDedup (s.analysis.tropeDetected ++ r.tropesDetected)) } }

/-- Mirror of the budget branch at the top of a bubble-variant tick, with the
four-second nominal duration: the counter is bumped and, at the ceiling, the
limit state is set, the interval cleared and the analyzing flag dropped; the
returned flag reports the early return. The sentence queue and the visible
bubbles are not touched by this branch. -/
def limitCheckTick (s : AppState) : AppState × Bool :=
  let t := s.totalAnalysisTime + 4000
  if SESSION_LIMIT_MS ≤ t then
    ({ s with
       totalAnalysisTime := t
       sessionLimitHit := true
       intervalActive := false
       analysis := { s.analysis with isAnalyzing := false } }, true)
  else ({ s with totalAnalysisTime := t }, false)

/-- Firing of the analysis interval: nothing happens once the interval is
cleared; otherwise the budget is checked and, within budget, an analyzer call
is issued when a frame is available; the eventual result of the issued call
is passed in as an oracle. -/
def analysisTickFire (s : AppState) (frame : Option AnalysisResult) : AppState :=
  if !s.intervalActive then s
  else
    let p := limitCheckTick s
    if p.2 then p.1
    else
      match frame with
      | none => p.1
      | some r => { p.1 with pending := some r }

/-- Window length of one hour in milliseconds. -/
def RATE_LIMIT_WINDOW_MS : Nat := 60 * 60 * 1000

/-- Maximum calls per client within one window. -/
def RATE_LIMIT_MAX : Nat := 400

/-- Rate-limit bookkeeping entry of one client. -/
structure RLEntry where
  count : Nat
  resetTime : Nat
deriving DecidableEq

/-- Reply of the rate-limit check. -/
structure RLResult where
  allowed : Bool
  remaining : Nat
  resetTime : Nat
deriving DecidableEq

/-- Mirror of the server-side rate-limit check: a missing or expired entry is
replaced by a fresh one, the counter is incremented, and the call is allowed
while the counter stays within the maximum. -/
def checkRateLimit (entry : Option RLEntry) (now : Nat) : RLEntry × RLResult :=
  let e : RLEntry :=
    match entry with
    | some e =>
      if e.resetTime < now then
        { count := 0, resetTime := now + RATE_LIMIT_WINDOW_MS }
      else e
    | none => { count := 0, resetTime := now + RATE_LIMIT_WINDOW_MS }
  let e2 : RLEntry := { e with count := e.count + 1 }
  (e2,
   { allowed := decide (e2.count ≤ RATE_LIMIT_MAX)
     remaining := RATE_LIMIT_MAX - e2.count
     resetTime := e2.resetTime })

/-- Outcome of one request to the analyze endpoint: either a 429 reply with a
Retry-After value and no upstream call, or a forwarded upstream call. -/
inductive AnalyzeOutcome
  | rateLimited (retryAfter : Nat)
  | forwarded
deriving DecidableEq

/-- Mirror of the analyze handler around the rate limit: a disallowed request
is answered with status 429 and a Retry-After header and the upstream model
backend is not contacted; an allowed request is forwarded. -/
def handleAnalyze (entry : Option RLEntry) (now : Nat) : Option RLEntry × AnalyzeOutcome :=
  let p := checkRateLimit entry now
  if p.2.allowed then (some p.1, AnalyzeOutcome.forwarded)
  else (some p.1, AnalyzeOutcome.rateLimited ((p.2.resetTime - now + 999) / 1000))

/-- Processing of a sequence of request times of one client. -/
def runRequests (entry : Option RLEntry) : List Nat → Option RLEntry × List AnalyzeOutcome
  | [] => (entry, [])
  | t :: ts =>
    let p := handleAnalyze entry t
    let q := runRequests p.1 ts
    (q.1, p.2 :: q.2)

/-- Observation of the first scenario tick: a non-boundary frame that guesses
the Acme brand. -/
def obsAcme (cA tA confA : String) (trA : List String) : AnalysisResult :=
  { commentary := cA
    theory := tA
    brandGuess := some "Acme"
    confidence := confA
    tropesDetected := trA
    isNewAd := false
    adSummaryOneLiner := "" }

/-- Observation of the second scenario tick: a boundary frame carrying the
closing one liner. -/
def obsBoundary (cB tB confB : String) (bB : Option String) (trB : List String) :
    AnalysisResult :=
  { commentary := cB
    theory := tB
    brandGuess := bB
    confidence := confB
    tropesDetected := trB
    isNewAd := true
    adSummaryOneLiner := "Acme sells nothing you need" }

/-- Segment state right after the loop starts on a fresh run: the closure of
the interval callback snapshots the null brand guess of that render, and the
running interval keeps this snapshot for the rest of the run. -/
def segInit (t0 : Nat) : SegState :=
  { analysis := { isAnalyzing := true
                  currentTheory := ""
                  brandGuess := none
                  tropeDetected := []
                  commentary := [] }
    completedAds := []
    currentAdStart := t0
    runningCommentary := []
    closureBrandGuess := none }

/-- Concrete application state of the bubble variant during a run: the sticky
brand guess and theory are set, the queue and bubbles are empty, and one
analyzer call is still in flight. -/
def c3State : AppState :=
  { analysis := { isAnalyzing := true
                  currentTheory := "Car ad"
                  brandGuess := some "Acme"
                  tropeDetected := []
                  commentary := [] }
    completedAds := []
    currentAdStart := 0
    runningCommentary := []
    sched := { bubbleQueue := []
               bubblePosition := BubblePos.left
               accentIndex := 0
               bubbles := [] }
    intervalActive := true
    sessionLimitHit := false
    totalAnalysisTime := 0
    pending := some { commentary := "Busted."
                      theory := "Car ad"
                      brandGuess := none
                      confidence := "certain"
                      tropesDetected := []
                      isNewAd := false
                      adSummaryOneLiner := "" } }

/-- C6: a response that fails to parse as the expected schema does not abort
the tick: the parse step returns a best-effort commentary-only result whose
commentary is the raw text with braces and quotes stripped and trimmed,
falling back to a non-empty placeholder, with the theory preserved from the
current state, a null brand guess, empty tropes and a false new-ad flag. -/
theorem c6_malformed_response_degrades (content theory : String) :
    (jsTrim (stripBracesQuotes content) ≠ "" →
      (parseTickResult none content theory).commentary =
        jsTrim (stripBracesQuotes content)) ∧
    (jsTrim (stripBracesQuotes content) = "" →
      (parseTickResult none content theory).commentary = "Analyzing...") ∧
    (parseTickResult none content theory).commentary ≠ "" ∧
    (parseTickResult none content theory).theory = theory ∧
    (parseTickResult none content theory).brandGuess = none ∧
    (parseTickResult none content theory).tropesDetected = [] ∧
    (parseTickResult none content theory).isNewAd = false := by
  refine ⟨?_, ?_, ?_, rfl, rfl, rfl, rfl⟩
  · intro h
    simp [parseTickResult, malformedFallback, jsOr, h]
  · intro h
    simp [parseTickResult, malformedFallback, jsOr, h]
  · by_cases h : jsTrim (stripBracesQuotes content) = "" <;>
      simp [parseTickResult, malformedFallback, jsOr, h]

/-- Witness of the malformed-response theorem at a concrete raw reply. -/
theorem c6_malformed_response_degrades_witness :
    (parseTickResult none "plain text reply" "Cars").commentary = "plain text reply" :=
  (c6_malformed_response_degrades "plain text reply" "Cars").1 (by decide)

/-- C7: every finalized session record has an end time at least its start
time, a non-empty one liner and a non-empty brand guess thanks to the literal
fallbacks, and the history is append only: saving adds the record at the end
and leaves every earlier record unchanged. -/
theorem c7_session_record_invariants (idStr brand liner : String) (log : List String)
    (startT now : Nat) (h : startT ≤ now) :
    (mkAdSession idStr brand liner log startT now).startTime ≤
      (mkAdSession idStr brand liner log startT now).endTime ∧
    (mkAdSession idStr brand liner log startT now).oneLiner ≠ "" ∧
    (mkAdSession idStr brand liner log startT now).brandGuess ≠ "" ∧
    ∀ (hist : List AdSession) (r : AdSession),
      saveCurrentAd hist r = hist ++ [r] ∧
      (saveCurrentAd hist r).length = hist.length + 1 ∧
      ∀ i, i < hist.length → (saveCurrentAd hist r)[i]? = hist[i]? := by
  refine ⟨h, ?_, ?_, ?_⟩
  · by_cases hl : liner = "" <;> simp [mkAdSession, jsOr, hl]
  · by_cases hb : brand = "" <;> simp [mkAdSession, jsOr, hb]
  · intro hist r
    refine ⟨rfl, by simp [saveCurrentAd], ?_⟩
    intro i hi
    simp [saveCurrentAd, List.getElem?_append, hi]

/-- Witness of the session-record theorem with empty inputs and ordered
times, showing both fallbacks fire and the time invariant holds. -/
theorem c7_session_record_invariants_witness :
    (mkAdSession "1" "" "" [] 0 5).startTime ≤ (mkAdSession "1" "" "" [] 0 5).endTime ∧
    (mkAdSession "1" "" "" [] 0 5).oneLiner ≠ "" ∧
    (mkAdSession "1" "" "" [] 0 5).brandGuess ≠ "" := by
  have h := c7_session_record_invariants "1" "" "" [] 0 5 (by decide)
  exact ⟨h.1, h.2.1, h.2.2.1⟩

/-- C8: the commentary text of the worked example splits into exactly the two
expected sentences, each already trimmed and non-empty, and they are appended
to the sentence queue in their original order. -/
theorem c8_sentence_splitting (q : List String) (pos : BubblePos) (ai : Nat)
    (bs : List Bubble) :
    splitSentences "This is bad. Really bad!" = ["This is bad.", "Really bad!"] ∧
    jsTrim "This is bad." = "This is bad." ∧
    jsTrim "Really bad!" = "Really bad!" ∧
    "This is bad." ≠ "" ∧
    "Really bad!" ≠ "" ∧
    (addCommentaryBubbles
        { bubbleQueue := q, bubblePosition := pos, accentIndex := ai, bubbles := bs }
        "This is bad. Really bad!").bubbleQueue =
      q ++ ["This is bad.", "Really bad!"] := by
  refine ⟨by decide, by decide, by decide, by decide, by decide, ?_⟩
  show q ++ splitSentences "This is bad. Really bad!" =
    q ++ ["This is bad.", "Really bad!"]
  rw [show splitSentences "This is bad. Really bad!" =
    ["This is bad.", "Really bad!"] from by decide]

/-- Preservation of a non-empty sticky brand guess under any observation
sequence. -/
theorem foldObs_brand_sticky (l : List (AnalysisResult × Nat)) :
    ∀ a : AnalysisState, (∃ v, a.brandGuess = some v ∧ v ≠ "") →
      ∃ w, (foldObs a l).brandGuess = some w ∧ w ≠ "" := by
  induction l with
  | nil =>
    intro a h
    exact h
  | cons p l ih =>
    intro a h
    have hstep : foldObs a (p :: l) = foldObs (applyObs a p.1 p.2) l := rfl
    rw [hstep]
    apply ih
    obtain ⟨v, hv, hne⟩ := h
    cases hbg : p.1.brandGuess with
    | none => exact ⟨v, by simp [applyObs, jsOrOpt, hbg, hv], hne⟩
    | some s =>
      by_cases hs : s = ""
      · exact ⟨v, by simp [applyObs, jsOrOpt, hbg, hs, hv], hne⟩
      · exact ⟨s, by simp [applyObs, jsOrOpt, hbg, hs], hs⟩

/-- Preservation of a non-empty sticky theory under any observation
sequence. -/
theorem foldObs_theory_sticky (l : List (AnalysisResult × Nat)) :
    ∀ a : AnalysisState, a.currentTheory ≠ "" →
      (foldObs a l).currentTheory ≠ "" := by
  induction l with
  | nil =>
    intro a h
    exact h
  | cons p l ih =>
    intro a h
    have hstep : foldObs a (p :: l) = foldObs (applyObs a p.1 p.2) l := rfl
    rw [hstep]
    apply ih
    by_cases ht : p.1.theory = "" <;> simp [applyObs, jsOr, ht]
    · exact h

/-- C4: the brand guess and the theory of the running segment are sticky: an
observation carrying an empty or null value leaves them unchanged, a
non-empty value replaces them, and over any sequence of observations a field
once non-empty never becomes empty again. -/
theorem c4_sticky_brand_and_theory (a : AnalysisState) (r : AnalysisResult) (now : Nat)
    (l : List (AnalysisResult × Nat)) :
    ((r.brandGuess = none ∨ r.brandGuess = some "") →
      (applyObs a r now).brandGuess = a.brandGuess) ∧
    (∀ v, r.brandGuess = some v → v ≠ "" → (applyObs a r now).brandGuess = some v) ∧
    (r.theory = "" → (applyObs a r now).currentTheory = a.currentTheory) ∧
    (r.theory ≠ "" → (applyObs a r now).currentTheory = r.theory) ∧
    (∀ v, a.brandGuess = some v → v ≠ "" →
      ∃ w, (foldObs a l).brandGuess = some w ∧ w ≠ "") ∧
    (a.currentTheory ≠ "" → (foldObs a l).currentTheory ≠ "") := by
  refine ⟨?_, ?_, ?_, ?_, ?_, ?_⟩
  · rintro (h | h) <;> simp [applyObs, jsOrOpt, h]
  · intro v hv hne
    simp [applyObs, jsOrOpt, hv, hne]
  · intro h
    simp [applyObs, jsOr, h]
  · intro h
    simp [applyObs, jsOr, h]
  · intro v hv hne
    exact foldObs_brand_sticky l a ⟨v, hv, hne⟩
  · intro h
    exact foldObs_theory_sticky l a h

/-- Witness of the sticky-field theorem: an observation with a null brand
guess does not clear an already established guess. -/
theorem c4_sticky_brand_and_theory_witness :
    (applyObs ⟨true, "Soda ad", some "Acme", [], []⟩
      ⟨"more snark", "", none, "guessing", [], false, ""⟩ 5).brandGuess = some "Acme" :=
  (c4_sticky_brand_and_theory ⟨true, "Soda ad", some "Acme", [], []⟩
    ⟨"more snark", "", none, "guessing", [], false, ""⟩ 5 []).1 (Or.inl rfl)

/-- Run of governor ticks that stays strictly below the ceiling: the counter
advances by the nominal duration each tick and nothing trips. -/
theorem govIter_below (dur N : Nat) (h : N * dur < SESSION_LIMIT_MS) :
    ∀ k, k ≤ N → govIter dur k =
      { totalAnalysisTime := k * dur
        sessionLimitHit := false
        intervalActive := true
        isAnalyzing := true } := by
  intro k hk
  induction k with
  | zero => simp [govIter, govInit]
  | succ k ih =>
    have hk' : k ≤ N := Nat.le_of_succ_le hk
    have hle : (k + 1) * dur ≤ N * dur := Nat.mul_le_mul_right dur hk
    have hlt : k * dur + dur < SESSION_LIMIT_MS := by
      rw [← Nat.succ_mul]
      exact lt_of_le_of_lt hle h
    rw [govIter, ih hk']
    simp [govTick, Nat.not_le.mpr hlt, Nat.succ_mul]

/-- C1: with nominal duration that exhausts the twenty-minute ceiling on the
Nth tick and not before, every earlier tick leaves the limit state clear and
the interval live with counter `k * dur`; the Nth tick sets the terminal
limit state, cancels the interval and stops analyzing with counter `N * dur`;
afterwards the start action is the identity, and the start action never
resets the cumulative counter on any state. -/
theorem c1_session_time_budget (dur N : Nat)
    (h1 : SESSION_LIMIT_MS ≤ N * dur) (h2 : (N - 1) * dur < SESSION_LIMIT_MS) :
    (∀ k, k < N → govIter dur k =
      { totalAnalysisTime := k * dur
        sessionLimitHit := false
        intervalActive := true
        isAnalyzing := true }) ∧
    govIter dur N =
      { totalAnalysisTime := N * dur
        sessionLimitHit := true
        intervalActive := false
        isAnalyzing := false } ∧
    handleStart (govIter dur N) = govIter dur N ∧
    (∀ g : GovernorState, (handleStart g).totalAnalysisTime = g.totalAnalysisTime) := by
  obtain ⟨M, rfl⟩ : ∃ M, N = M + 1 := by
    cases N with
    | zero =>
      exfalso
      simp [SESSION_LIMIT_MS] at h1
    | succ M => exact ⟨M, rfl⟩
  have h2' : M * dur < SESSION_LIMIT_MS := by simpa using h2
  have hbelow := govIter_below dur M h2'
  have hN : govIter dur (M + 1) =
      { totalAnalysisTime := (M + 1) * dur
        sessionLimitHit := true
        intervalActive := false
        isAnalyzing := false } := by
    rw [govIter, hbelow M (le_refl M)]
    have htrip : SESSION_LIMIT_MS ≤ M * dur + dur := by
      rw [← Nat.succ_mul]
      exact h1
    simp [govTick, htrip, Nat.succ_mul]
  refine ⟨?_, hN, ?_, ?_⟩
  · intro k hk
    exact hbelow k (Nat.le_of_lt_succ hk)
  · rw [hN]
    simp [handleStart]
  · intro g
    unfold handleStart
    split <;> rfl

/-- Witness of the session-budget theorem: three ticks of 400000 ms exhaust
the 1200000 ms ceiling exactly on the third tick. -/
theorem c1_session_time_budget_witness :
    (govIter 400000 2).sessionLimitHit = false ∧
    govIter 400000 3 =
      { totalAnalysisTime := 3 * 400000
        sessionLimitHit := true
        intervalActive := false
        isAnalyzing := false } := by
  have h := c1_session_time_budget 400000 3 (by decide) (by decide)
  refine ⟨?_, h.2.1⟩
  rw [h.1 2 (by decide)]

/-- Length bound of the last-n slice. -/
theorem sliceLast_length_le (n : Nat) (l : List α) : (sliceLast n l).length ≤ n := by
  simp [sliceLast]
  omega

/-- The bubble cap is preserved by every scheduler event. -/
theorem schedStep_bubbles_le (s : SchedState) (e : SchedEvent)
    (h : s.bubbles.length ≤ 5) : (schedStep s e).bubbles.length ≤ 5 := by
  cases e with
  | produce text => simpa [schedStep, addCommentaryBubbles] using h
  | release now =>
    unfold schedStep releaseTick
    cases hq : s.bubbleQueue with
    | nil => simpa using h
    | cons sent rest =>
      simpa using sliceLast_length_le 5 _
  | sweep now =>
    calc (schedStep s (SchedEvent.sweep now)).bubbles.length
        ≤ s.bubbles.length := List.length_filter_le _ _
      _ ≤ 5 := h

/-- The bubble cap is an invariant of every scheduler run. -/
theorem runSched_bubbles_le (evs : List SchedEvent) :
    ∀ s : SchedState, s.bubbles.length ≤ 5 → (runSched s evs).bubbles.length ≤ 5 := by
  induction evs with
  | nil =>
    intro s h
    exact h
  | cons e evs ih =>
    intro s h
    exact ih _ (schedStep_bubbles_le s e h)

/-- C5: the visible bubble set never exceeds five under any event sequence;
when the set is at the cap, a release drops the first (oldest) bubble, and in
a creation-ordered list the first bubble is indeed the oldest; the sweep
keeps exactly the bubbles younger than the sixteen-second horizon, so once
every bubble is past the horizon a sweep removes them all. -/
theorem c5_bubble_cap_and_expiry (evs : List SchedEvent) (s : SchedState) (now : Nat)
    (b : Bubble) (l : List Bubble) :
    (s.bubbles.length ≤ 5 → (runSched s evs).bubbles.length ≤ 5) ∧
    (∀ sent rest, s.bubbleQueue = sent :: rest → s.bubbles.length = 5 →
      (releaseTick s now).bubbles = s.bubbles.tail ++
        [{ id := toString now
           text := jsTrim sent
           position := s.bubblePosition
           accent := accentOf s.accentIndex
           createdAt := now }]) ∧
    (∀ hd tl, s.bubbles = hd :: tl →
      List.Pairwise (fun x y => x.createdAt ≤ y.createdAt) s.bubbles →
      ∀ x ∈ s.bubbles, hd.createdAt ≤ x.createdAt) ∧
    (b ∈ sweepBubbles now l ↔ b ∈ l ∧ now - b.createdAt < 16000) ∧
    ((∀ x ∈ l, x.createdAt + 16000 ≤ now) → sweepBubbles now l = []) := by
  refine ⟨runSched_bubbles_le evs s, ?_, ?_, ?_, ?_⟩
  · intro sent rest hq h5
    unfold releaseTick
    rw [hq]
    simp only [sliceLast, List.length_append, h5, List.length_cons,
      List.length_nil]
    have hdrop : (5 + (0 + 1)) - 5 = 1 := by omega
    rw [hdrop, List.drop_append_of_le_length (by omega), List.drop_one]
  · intro hd tl he hp x hx
    rw [he] at hp hx
    rcases List.mem_cons.mp hx with h | h
    · rw [h]
    · exact (List.pairwise_cons.mp hp).1 x h
  · simp [sweepBubbles, List.mem_filter]
  · intro hall
    unfold sweepBubbles
    rw [List.filter_eq_nil_iff]
    intro x hx
    have := hall x hx
    simp
    omega

/-- Witness of the cap-and-expiry theorem: a sweep past the horizon clears a
single stale bubble. -/
theorem c5_bubble_cap_and_expiry_witness :
    sweepBubbles 20000
      [{ id := "1", text := "x", position := BubblePos.left,
         accent := Accent.green, createdAt := 0 }] = [] := by
  have h := c5_bubble_cap_and_expiry []
    { bubbleQueue := [], bubblePosition := BubblePos.left, accentIndex := 0, bubbles := [] }
    20000
    { id := "1", text := "x", position := BubblePos.left,
      accent := Accent.green, createdAt := 0 }
    [{ id := "1", text := "x", position := BubblePos.left,
       accent := Accent.green, createdAt := 0 }]
  exact h.2.2.2.2 (by decide)

/-- C10: a tick that trips the session limit clears only the interval and the
analyzing flag while setting the limit state; the sentence queue and the
visible bubbles are left untouched, unlike the user stop which clears both,
so sentences already queued keep being released as bubbles afterwards. -/
theorem c10_limit_trip_keeps_queue (s : AppState) (now : Nat)
    (h : SESSION_LIMIT_MS ≤ s.totalAnalysisTime + 4000) :
    (limitCheckTick s).1.sched.bubbleQueue = s.sched.bubbleQueue ∧
    (limitCheckTick s).1.sched.bubbles = s.sched.bubbles ∧
    (limitCheckTick s).1.sessionLimitHit = true ∧
    (limitCheckTick s).1.intervalActive = false ∧
    (limitCheckTick s).1.analysis.isAnalyzing = false ∧
    (limitCheckTick s).2 = true ∧
    (stopAnalysis s now).sched.bubbleQueue = [] ∧
    (stopAnalysis s now).sched.bubbles = [] ∧
    (∀ sent rest, s.sched.bubbleQueue = sent :: rest →
      (releaseTick (limitCheckTick s).1.sched now).bubbleQueue = rest ∧
      (releaseTick (limitCheckTick s).1.sched now).bubbles =
        sliceLast 5 (s.sched.bubbles ++
          [{ id := toString now
             text := jsTrim sent
             position := s.sched.bubblePosition
             accent := accentOf s.sched.accentIndex
             createdAt := now }])) := by
  have hs : (limitCheckTick s).1.sched = s.sched := by
    unfold limitCheckTick
    rw [if_pos h]
  have ht : (limitCheckTick s) =
      ({ s with
         totalAnalysisTime := s.totalAnalysisTime + 4000
         sessionLimitHit := true
         intervalActive := false
         analysis := { s.analysis with isAnalyzing := false } }, true) := by
    unfold limitCheckTick
    rw [if_pos h]
  refine ⟨by rw [hs], by rw [hs], by rw [ht], by rw [ht], by rw [ht], by rw [ht],
    rfl, rfl, ?_⟩
  intro sent rest hq
  rw [hs]
  unfold releaseTick
  rw [hq]
  exact ⟨rfl, rfl⟩

/-- Witness of the limit-trip theorem at a concrete exhausted state with a
non-empty sentence queue. -/
theorem c10_limit_trip_keeps_queue_witness :
    (limitCheckTick { c3State with
        totalAnalysisTime := 1196000
        sched := { c3State.sched with bubbleQueue := ["Queued line."] } }).1.sched.bubbleQueue =
      ["Queued line."] := by
  have h := c10_limit_trip_keeps_queue
    { c3State with
      totalAnalysisTime := 1196000
      sched := { c3State.sched with bubbleQueue := ["Queued line."] } }
    7 (by decide)
  exact h.1

/-- C3 counterexample: from a live state with a sticky brand and one analyzer
call in flight, the result arriving after the stop refills the supposedly
empty sentence queue, and a second direct stop appends a second session
record, because the first stop clears neither the pending call nor the sticky
brand and theory. -/
theorem c3_stop_counterexample :
    (resultArrive (stopAnalysis c3State 10)).sched.bubbleQueue = ["Busted."] ∧
    (resultArrive (stopAnalysis c3State 10)).sched.bubbleQueue ≠ [] ∧
    (stopAnalysis c3State 10).completedAds.length = 1 ∧
    (stopAnalysis (stopAnalysis c3State 10) 20).completedAds.length = 2 := by
  refine ⟨by decide, by decide, by decide, by decide⟩

/-- C3 amended: after the stop the queue and bubbles are cleared and every
timer alone leaves them empty, since the analysis interval is cancelled and
the release and sweep ticks find nothing; with no call in flight nothing else
changes. However a result still pending at stop time is processed on arrival
and refills the queue, and a second stop appends one further record exactly
when the sticky brand or theory is still truthy, while it appends nothing
when both are empty. -/
theorem c3_stop_shutdown_amended (s : AppState) (now now2 now3 : Nat) :
    (stopAnalysis s now).sched.bubbleQueue = [] ∧
    (stopAnalysis s now).sched.bubbles = [] ∧
    (stopAnalysis s now).intervalActive = false ∧
    (∀ frame, analysisTickFire (stopAnalysis s now) frame = stopAnalysis s now) ∧
    releaseTick (stopAnalysis s now).sched now2 = (stopAnalysis s now).sched ∧
    sweepBubbles now2 (stopAnalysis s now).sched.bubbles = [] ∧
    (s.pending = none → resultArrive (stopAnalysis s now) = stopAnalysis s now) ∧
    (∀ r, s.pending = some r →
      (resultArrive (stopAnalysis s now)).sched.bubbleQueue =
        splitSentences r.commentary) ∧
    ((truthy s.analysis.brandGuess || !(s.analysis.currentTheory == "")) = true →
      (stopAnalysis (stopAnalysis s now) now3).completedAds.length =
        (stopAnalysis s now).completedAds.length + 1) ∧
    ((truthy s.analysis.brandGuess || !(s.analysis.currentTheory == "")) = false →
      (stopAnalysis (stopAnalysis s now) now3).completedAds =
        (stopAnalysis s now).completedAds) := by
  refine ⟨rfl, rfl, rfl, ?_, rfl, rfl, ?_, ?_, ?_, ?_⟩
  · intro frame
    have hIA : (stopAnalysis s now).intervalActive = false := rfl
    unfold analysisTickFire
    rw [hIA]
    rfl
  · intro hp
    have hps : (stopAnalysis s now).pending = none := hp
    unfold resultArrive
    rw [hps]
  · intro r hp
    have hps : (stopAnalysis s now).pending = some r := hp
    unfold resultArrive
    rw [hps]
    show (stopAnalysis s now).sched.bubbleQueue ++ splitSentences r.commentary =
      splitSentences r.commentary
    rfl
  · intro h
    show (stopAnalysis (stopAnalysis s now) now3).completedAds.length = _
    unfold stopAnalysis
    simp only [h]
    simp [saveCurrentAd]
  · intro h
    show (stopAnalysis (stopAnalysis s now) now3).completedAds = _
    unfold stopAnalysis
    simp only [h]
    simp

/-- Witness of the amended stop theorem at the concrete in-flight state. -/
theorem c3_stop_shutdown_amended_witness :
    (stopAnalysis c3State 10).sched.bubbleQueue = [] ∧
    (resultArrive (stopAnalysis c3State 10)).sched.bubbleQueue =
      splitSentences "Busted." := by
  have h := c3_stop_shutdown_amended c3State 10 11 12
  refine ⟨h.1, h.2.2.2.2.2.2.2.1 _ rfl⟩

/-- C2: evaluation of the code at the failing input of the end-to-end
scenario. The first tick establishes the sticky brand guess Acme in the live
state, yet the boundary tick saves the record through the closure snapshot
of the analysis state, which stays null for the whole run, so with a
boundary observation carrying no guess of its own the saved record reads the
literal Unknown Brand instead of the sticky Acme. The remainder of the
scenario behaves as specified: exactly one record with the boundary one
liner, and the running segment reset with the finalization time as its
fresh start. -/
theorem c2_boundary_closure_snapshot_bug :
    (fullTick (segInit 0)
        (obsAcme "Nice beach." "Beach ad" "guessing" []) 1).analysis.brandGuess =
      some "Acme" ∧
    (fullTick (fullTick (segInit 0) (obsAcme "Nice beach." "Beach ad" "guessing" []) 1)
        (obsBoundary "New ad." "Unclear" "guessing" none []) 2).completedAds =
      [{ id := toString 2
         brandGuess := "Unknown Brand"
         oneLiner := "Acme sells nothing you need"
         commentaryLog := ["Nice beach."]
         startTime := 0
         endTime := 2 }] ∧
    ("Unknown Brand" : String) ≠ "Acme" ∧
    (boundaryStep (fullTick (segInit 0) (obsAcme "Nice beach." "Beach ad" "guessing" []) 1)
        (obsBoundary "New ad." "Unclear" "guessing" none []) 2).runningCommentary = [] ∧
    (boundaryStep (fullTick (segInit 0) (obsAcme "Nice beach." "Beach ad" "guessing" []) 1)
        (obsBoundary "New ad." "Unclear" "guessing" none []) 2).analysis.commentary = [] ∧
    (boundaryStep (fullTick (segInit 0) (obsAcme "Nice beach." "Beach ad" "guessing" []) 1)
        (obsBoundary "New ad." "Unclear" "guessing" none []) 2).analysis.brandGuess = none ∧
    (boundaryStep (fullTick (segInit 0) (obsAcme "Nice beach." "Beach ad" "guessing" []) 1)
        (obsBoundary "New ad." "Unclear" "guessing" none []) 2).currentAdStart = 2 := by
  refine ⟨by decide, by decide, by decide, by decide, by decide, by decide, by decide⟩

/-- One in-window request against an existing entry: the counter advances and
the outcome depends only on the advanced counter. -/
theorem handleAnalyze_in_window (c R t : Nat) (h : t ≤ R) :
    handleAnalyze (some { count := c, resetTime := R }) t =
      (some { count := c + 1, resetTime := R },
       if c + 1 ≤ RATE_LIMIT_MAX then AnalyzeOutcome.forwarded
       else AnalyzeOutcome.rateLimited ((R - t + 999) / 1000)) := by
  unfold handleAnalyze checkRateLimit
  have hR : ¬ (R < t) := Nat.not_lt.mpr h
  by_cases hc : c + 1 ≤ RATE_LIMIT_MAX <;> simp [hR, hc]

/-- Per-index characterization of a run of in-window requests against an
entry with a given counter: request `i` is forwarded exactly while the
counter stays within the maximum, it is rate limited past it, and the number
of forwarded requests is bounded by the remaining budget. -/
theorem runRequests_window_spec (ts : List Nat) :
    ∀ (c R : Nat), (∀ t ∈ ts, t ≤ R) →
      (runRequests (some { count := c, resetTime := R }) ts).2.length = ts.length ∧
      (∀ i, i < ts.length →
        ((runRequests (some { count := c, resetTime := R }) ts).2[i]? =
            some AnalyzeOutcome.forwarded ↔ c + i + 1 ≤ RATE_LIMIT_MAX)) ∧
      (∀ i, i < ts.length → RATE_LIMIT_MAX < c + i + 1 →
        ∃ ra, (runRequests (some { count := c, resetTime := R }) ts).2[i]? =
          some (AnalyzeOutcome.rateLimited ra)) ∧
      (runRequests (some { count := c, resetTime := R }) ts).2.countP
          (fun o => o == AnalyzeOutcome.forwarded) ≤ RATE_LIMIT_MAX - c := by
  induction ts with
  | nil =>
    intro c R h
    refine ⟨rfl, ?_, ?_, ?_⟩ <;> simp [runRequests]
  | cons t ts ih =>
    intro c R h
    have ht : t ≤ R := h t (List.mem_cons_self t ts)
    have hrest : ∀ x ∈ ts, x ≤ R := fun x hx => h x (List.mem_cons_of_mem t hx)
    have hrun : runRequests (some { count := c, resetTime := R }) (t :: ts) =
        ((runRequests (some { count := c + 1, resetTime := R }) ts).1,
         (if c + 1 ≤ RATE_LIMIT_MAX then AnalyzeOutcome.forwarded
          else AnalyzeOutcome.rateLimited ((R - t + 999) / 1000)) ::
           (runRequests (some { count := c + 1, resetTime := R }) ts).2) := by
      rw [runRequests, handleAnalyze_in_window c R t ht]
    obtain ⟨ihlen, ihiff, ihrl, ihcount⟩ := ih (c + 1) R hrest
    rw [hrun]
    refine ⟨by simp [ihlen], ?_, ?_, ?_⟩
    · intro i hi
      cases i with
      | zero =>
        by_cases hc : c + 1 ≤ RATE_LIMIT_MAX <;> simp [hc]
      | succ j =>
        have hj : j < ts.length := by simpa using hi
        have := ihiff j hj
        simp only [List.getElem?_cons_succ]
        exact this.trans (by omega)
    · intro i hi hgt
      cases i with
      | zero =>
        have hc : ¬ (c + 1 ≤ RATE_LIMIT_MAX) := by omega
        exact ⟨(R - t + 999) / 1000, by simp [hc]⟩
      | succ j =>
        have hj : j < ts.length := by simpa using hi
        obtain ⟨ra, hra⟩ := ihrl j hj (by omega)
        exact ⟨ra, by simpa using hra⟩
    · by_cases hc : c + 1 ≤ RATE_LIMIT_MAX
      · rw [if_pos hc, List.countP_cons]
        have hb : ((AnalyzeOutcome.forwarded == AnalyzeOutcome.forwarded) : Bool) = true :=
          rfl
        rw [hb]
        simp only [if_true]
        omega
      · rw [if_neg hc, List.countP_cons]
        have hb : ((AnalyzeOutcome.rateLimited ((R - t + 999) / 1000) ==
            AnalyzeOutcome.forwarded) : Bool) = false := rfl
        rw [hb]
        simp only [Bool.false_eq_true, if_false]
        omega

/-- C9: over any sequence of requests of one client inside a single window,
at most 400 are forwarded upstream: request `i` is forwarded exactly while
`i + 1 ≤ 400`, every later request inside the window is answered 429 with a
Retry-After value and no upstream call, and once the reset time has passed a
request starts a fresh window with counter one and is allowed again. -/
theorem c9_rate_limit_budget (t0 : Nat) (ts : List Nat)
    (hin : ∀ t ∈ ts, t ≤ t0 + RATE_LIMIT_WINDOW_MS) :
    (runRequests none (t0 :: ts)).2.length = ts.length + 1 ∧
    (runRequests none (t0 :: ts)).2.countP (fun o => o == AnalyzeOutcome.forwarded) ≤
      RATE_LIMIT_MAX ∧
    (∀ i, i < ts.length + 1 →
      ((runRequests none (t0 :: ts)).2[i]? = some AnalyzeOutcome.forwarded ↔
        i + 1 ≤ RATE_LIMIT_MAX)) ∧
    (∀ i, i < ts.length + 1 → RATE_LIMIT_MAX < i + 1 →
      ∃ ra, (runRequests none (t0 :: ts)).2[i]? =
        some (AnalyzeOutcome.rateLimited ra)) ∧
    (∀ c R now, R < now →
      checkRateLimit (some { count := c, resetTime := R }) now =
        ({ count := 1, resetTime := now + RATE_LIMIT_WINDOW_MS },
         { allowed := true
           remaining := RATE_LIMIT_MAX - 1
           resetTime := now + RATE_LIMIT_WINDOW_MS })) := by
  have h1le : (1 : Nat) ≤ RATE_LIMIT_MAX := by decide
  have h0 : handleAnalyze none t0 =
      (some { count := 1, resetTime := t0 + RATE_LIMIT_WINDOW_MS },
       AnalyzeOutcome.forwarded) := by
    unfold handleAnalyze checkRateLimit
    simp [h1le]
  have hrun : runRequests none (t0 :: ts) =
      ((runRequests (some { count := 1, resetTime := t0 + RATE_LIMIT_WINDOW_MS }) ts).1,
       AnalyzeOutcome.forwarded ::
         (runRequests (some { count := 1, resetTime := t0 + RATE_LIMIT_WINDOW_MS }) ts).2) := by
    rw [runRequests, h0]
  obtain ⟨hlen, hiff, hrl, hcount⟩ :=
    runRequests_window_spec ts 1 (t0 + RATE_LIMIT_WINDOW_MS) hin
  rw [hrun]
  refine ⟨by simp [hlen], ?_, ?_, ?_, ?_⟩
  · rw [List.countP_cons]
    have hb : ((AnalyzeOutcome.forwarded == AnalyzeOutcome.forwarded) : Bool) = true :=
      rfl
    rw [hb]
    simp only [if_true]
    omega
  · intro i hi
    cases i with
    | zero =>
      simp [h1le]
    | succ j =>
      have hj : j < ts.length := by omega
      have := hiff j hj
      simp only [List.getElem?_cons_succ]
      exact this.trans (by omega)
  · intro i hi hgt
    cases i with
    | zero =>
      exfalso
      omega
    | succ j =>
      have hj : j < ts.length := by omega
      obtain ⟨ra, hra⟩ := hrl j hj (by omega)
      exact ⟨ra, by simpa using hra⟩
  · intro c R now h
    unfold checkRateLimit
    simp [h, h1le]

/-- Witness of the rate-limit theorem at two concrete in-window requests. -/
theorem c9_rate_limit_budget_witness :
    (runRequests none [0, 5]).2.length = 2 := by
  have h := c9_rate_limit_budget 0 [5] (by decide)
  simpa using h.1

end SnarkBowl
